import Mathlib

/-!
# go-quiz: a timed command-line quiz runner

A shallow embedding of `main.go` and a verification of its specification.

Modelling conventions:

* A Go `string` is a Lean `String`, read as its sequence of runes (`String.data`);
  the strings are taken to be valid UTF-8.
* Go `uint` and `int` are the 64-bit types of the usual targets: a `uint` is a
  `Nat` reduced modulo `2 ^ 64`, an `int` is an `Int` wrapped to the signed
  64-bit range.
* The case table behind `unicode.ToLower` for runes above ASCII belongs to the Go
  standard library; it is the parameter `tbl : Char → Char` of every definition
  that lower-cases.
* Standard input is the list of strings that the successive calls of
  `reader.ReadString('\n')` return; once it is exhausted a call returns `""`.
* Standard output is the list of strings written, in order, one per
  `fmt.Printf` / `fmt.Println` call.
* A panic is `none`.
-/

namespace GoQuiz

/-! ## Library functions used by `main.go` -/

/-- Number of bits of the Go types `uint` and `int`. -/
def uintSize : Nat := 64

/-- Reduction of a natural number to the range of `uint`. -/
def wrapUint (n : Nat) : Nat := n % 2 ^ uintSize

/-- Reduction of an integer to the range of `int` (two's complement). -/
def wrapInt (z : Int) : Int :=
  (z + 2 ^ (uintSize - 1)) % 2 ^ uintSize - 2 ^ (uintSize - 1)

/-- The Go conversion `int(u)` of a `uint`. -/
def uintToInt (u : Nat) : Int := wrapInt (Int.ofNat u)

/-- Go `unicode.ToLower`: ASCII is handled directly, every other rune goes through
the case table `tbl`. -/
def unicodeToLower (tbl : Char → Char) (r : Char) : Char :=
  if r.toNat ≤ 0x7F then
    if 'A'.toNat ≤ r.toNat ∧ r.toNat ≤ 'Z'.toNat then Char.ofNat (r.toNat + ('a'.toNat - 'A'.toNat))
    else r
  else tbl r

/-- Go `strings.ToLower`: every rune mapped through `unicode.ToLower`. -/
def ToLower (tbl : Char → Char) (s : String) : String :=
  ⟨s.data.map (unicodeToLower tbl)⟩

/-- Go `strings.TrimLeftFunc`. -/
def TrimLeftFunc (s : String) (f : Char → Bool) : String := ⟨s.data.dropWhile f⟩

/-- Go `strings.TrimRightFunc`. -/
def TrimRightFunc (s : String) (f : Char → Bool) : String := ⟨s.data.rdropWhile f⟩

/-- Go `strings.TrimFunc`: `TrimRightFunc(TrimLeftFunc(s, f), f)`. -/
def TrimFunc (s : String) (f : Char → Bool) : String :=
  TrimRightFunc (TrimLeftFunc s f) f

/-- Membership of a rune in a cutset. -/
def inCutset (cutset : String) (r : Char) : Bool := decide (r ∈ cutset.data)

/-- Go `strings.Trim`: the trailing runes of the cutset are removed first, then the
leading ones. -/
def Trim (s cutset : String) : String :=
  if s = "" ∨ cutset = "" then s
  else TrimLeftFunc (TrimRightFunc s (inCutset cutset)) (inCutset cutset)

/-- Go `unicode.IsSpace`: the Latin-1 spaces, then the `White_Space` table. -/
def IsSpace (r : Char) : Bool :=
  let n := r.toNat
  if n ≤ 0xFF then
    n = 0x09 ∨ n = 0x0A ∨ n = 0x0B ∨ n = 0x0C ∨ n = 0x0D ∨ n = 0x20 ∨ n = 0x85 ∨ n = 0xA0
  else
    n = 0x1680 ∨ (0x2000 ≤ n ∧ n ≤ 0x200A) ∨ n = 0x2028 ∨ n = 0x2029 ∨ n = 0x202F
      ∨ n = 0x205F ∨ n = 0x3000

/-- Go `strings.TrimSpace`. -/
def TrimSpace (s : String) : String := TrimFunc s IsSpace

/-- Go `%d` applied to a `uint`. -/
def fmtUint (n : Nat) : String := toString n

/-- Go `%d` applied to an `int`. -/
def fmtInt (z : Int) : String := toString z

/-! ## The program -/

/-- The type `Problem`. -/
structure Problem where
  Question : String
  Answer : String
  deriving DecidableEq

/-- The method `(p *Problem) ValidateAnswer(answer string) bool`. -/
def ValidateAnswer (tbl : Char → Char) (p : Problem) (answer : String) : Bool :=
  decide (ToLower tbl (Trim answer "\n\r\t") = ToLower tbl (Trim p.Answer "\n\r\t"))

/-- The type `Quiz`; `Score` is a `uint`. -/
structure Quiz where
  Problems : List Problem
  Score : Nat
  deriving DecidableEq

/-- The type `QuizFlags`, with the flag values in place of the pointers to them. -/
structure QuizFlags where
  TimeLimit : Int
  FileName : String
  CorrectScore : Nat
  deriving DecidableEq

/-- The method `(quiz *Quiz) IncrementScore(flags QuizFlags)`: `uint` addition. -/
def IncrementScore (quiz : Quiz) (flags : QuizFlags) : Quiz :=
  { quiz with Score := wrapUint (quiz.Score + flags.CorrectScore) }

/-- The total that `PromptScoreMessage` prints: `len(quiz.Problems)*scorePerCorrect`
in `int` arithmetic. -/
def reportTotal (quiz : Quiz) (scorePerCorrect : Int) : Int :=
  wrapInt (Int.ofNat quiz.Problems.length * scorePerCorrect)

/-- The method `(quiz *Quiz) PromptScoreMessage(scorePerCorrect int)`: the text it
writes. -/
def PromptScoreMessage (quiz : Quiz) (scorePerCorrect : Int) : String :=
  "\nYou scored " ++ fmtUint quiz.Score ++ " out of "
    ++ fmtInt (reportTotal quiz scorePerCorrect) ++ "!"

/-- The text of the prompt `fmt.Printf("Q%d: %s? ", index+1, problem.Question)`. -/
def promptText (index : Nat) (problem : Problem) : String :=
  "Q" ++ fmtInt (wrapInt (Int.ofNat index + 1)) ++ ": " ++ problem.Question ++ "? "

/-- The text of `fmt.Println("Correct!")`. -/
def correctText : String := "Correct!\n"

/-- The text of `fmt.Printf("Incorrect answer! Correct answer was %s.\n", problem.Answer)`. -/
def incorrectText (problem : Problem) : String :=
  "Incorrect answer! Correct answer was " ++ problem.Answer ++ ".\n"

/-- The state of a run of `PlayQuiz`: the quiz, the index of the next iteration of the
`range` loop, the input not yet read and the output written so far. -/
structure Session where
  quiz : Quiz
  index : Nat
  stdin : List String
  stdout : List String
  deriving DecidableEq

/-- One call `reader.ReadString('\n')`, the error dropped: the next line, or `""` at
the end of the input. -/
def ReadString (stdin : List String) : String × List String :=
  match stdin with
  | [] => ("", [])
  | line :: rest => (line, rest)

/-- The body of the loop of `PlayQuiz` for the element `problem` at the index of the
session. -/
def PlayQuizBody (tbl : Char → Char) (flags : QuizFlags) (problem : Problem)
    (s : Session) : Session :=
  let prompted := s.stdout ++ [promptText s.index problem]
  let answer := TrimSpace (ReadString s.stdin).1
  if ValidateAnswer tbl problem answer then
    { quiz := IncrementScore s.quiz flags, index := s.index + 1,
      stdin := (ReadString s.stdin).2, stdout := prompted ++ [correctText] }
  else
    { quiz := s.quiz, index := s.index + 1,
      stdin := (ReadString s.stdin).2, stdout := prompted ++ [incorrectText problem] }

/-- One iteration of `for index, problem := range quiz.Problems`; past the last
problem the loop has ended and the session no longer changes. -/
def PlayQuizStep (tbl : Char → Char) (flags : QuizFlags) (s : Session) : Session :=
  match s.quiz.Problems[s.index]? with
  | none => s
  | some problem => PlayQuizBody tbl flags problem s

/-- The session after `n` iterations of the loop of `PlayQuiz`. -/
def PlayQuizIter (tbl : Char → Char) (flags : QuizFlags) : Nat → Session → Session
  | 0, s => s
  | n + 1, s => PlayQuizStep tbl flags (PlayQuizIter tbl flags n s)

/-- The session in which `PlayQuiz` starts. -/
def startSession (quiz : Quiz) (stdin : List String) : Session :=
  { quiz := quiz, index := 0, stdin := stdin, stdout := [] }

/-- The function `PlayQuiz(quiz *Quiz, flags *QuizFlags)`: the loop run over all the
problems. -/
def PlayQuiz (tbl : Char → Char) (quiz : Quiz) (flags : QuizFlags)
    (stdin : List String) : Session :=
  PlayQuizIter tbl flags quiz.Problems.length (startSession quiz stdin)

/-- The function `ReadProblemsFromCsv(csvData [][]string) []Problem`; indexing a row
that is too short panics. -/
def ReadProblemsFromCsv : List (List String) → Option (List Problem)
  | [] => some []
  | data :: rest =>
    match data[0]?, data[1]? with
    | some question, some answer =>
      match ReadProblemsFromCsv rest with
      | some problems => some ({ Question := question, Answer := answer } :: problems)
      | none => none
    | _, _ => none

/-- The function `ReadCsvData(flags QuizFlags) [][]string`. The file system and the
CSV reader are the parameter `fsys`: the records `csv.ReadAll` returns for the content
of a file, `none` where reading or parsing fails and `PanicInErr` panics. -/
def ReadCsvData (fsys : String → Option (List (List String))) (flags : QuizFlags) :
    Option (List (List String)) :=
  fsys flags.FileName

/-- The function `InitQuiz(flags QuizFlags) Quiz`. -/
def InitQuiz (fsys : String → Option (List (List String))) (flags : QuizFlags) :
    Option Quiz :=
  match ReadCsvData fsys flags with
  | none => none
  | some csvData =>
    match ReadProblemsFromCsv csvData with
    | none => none
    | some problems => some { Problems := problems, Score := 0 }

/-- What a terminated process leaves: its output and its exit code. -/
structure Exit where
  stdout : List String
  code : Int
  deriving DecidableEq

/-- The function `ExitOnTimeUp()`, after the output `stdout`. -/
def ExitOnTimeUp (stdout : List String) : Exit :=
  { stdout := stdout ++ ["\nTime is up!\n"], code := 0 }

/-- The goroutine of `main` once the timer has fired, the session being `s` at that
moment: the score report, then `ExitOnTimeUp`. -/
def mainTimerFired (flags : QuizFlags) (s : Session) : Exit :=
  ExitOnTimeUp (s.stdout ++ [PromptScoreMessage s.quiz (uintToInt flags.CorrectScore)])

/-- The statements of `main` that follow the return of `PlayQuiz`, the session being
`s`: the score report, then `ExitOnTimeUp`. -/
def mainAfterPlay (flags : QuizFlags) (s : Session) : Exit :=
  ExitOnTimeUp (s.stdout ++ [PromptScoreMessage s.quiz (uintToInt flags.CorrectScore)])

/-- The function `main` on a run in which `PlayQuiz` returns before the timer fires. -/
def main (tbl : Char → Char) (fsys : String → Option (List (List String)))
    (flags : QuizFlags) (stdin : List String) : Option Exit :=
  match InitQuiz fsys flags with
  | none => none
  | some quiz => some (mainAfterPlay flags (PlayQuiz tbl quiz flags stdin))

/-! ## The notions of the specification -/

/-- The whitespace the specification of `validate` lists: spaces, tabs, newlines and
carriage returns. -/
def specWhitespace (r : Char) : Bool :=
  r = ' ' || r = '\t' || r = '\n' || r = '\r'

/-- The whitespace of the cutset of `ValidateAnswer`: tabs, newlines and carriage
returns. -/
def cutsetWhitespace (r : Char) : Bool :=
  r = '\t' || r = '\n' || r = '\r'

/-- The normal form of the specification: the leading and the trailing runes of the
class `ws` trimmed, the rest lower-cased. -/
def specNormalize (tbl : Char → Char) (ws : Char → Bool) (s : String) : String :=
  ⟨((s.data.dropWhile ws).rdropWhile ws).map (unicodeToLower tbl)⟩

/-- ASCII lower-casing, the first branch of `unicode.ToLower`. -/
def asciiToLower (r : Char) : Char :=
  if 'A'.toNat ≤ r.toNat ∧ r.toNat ≤ 'Z'.toNat then Char.ofNat (r.toNat + ('a'.toNat - 'A'.toNat))
  else r

/-- Number of the first `n` problems whose input line `PlayQuiz` judges correct. -/
def correctCount (tbl : Char → Char) (problems : List Problem) (stdin : List String) :
    Nat → Nat
  | 0 => 0
  | n + 1 =>
    correctCount tbl problems stdin n +
      (match problems[n]? with
        | some problem =>
          if ValidateAnswer tbl problem (TrimSpace (stdin.getD n "")) then 1 else 0
        | none => 0)

/-- The output of the first `n` iterations of `PlayQuiz`: for each problem its prompt
and the feedback on its input line. -/
def transcript (tbl : Char → Char) (problems : List Problem) (stdin : List String) :
    Nat → List String
  | 0 => []
  | n + 1 =>
    transcript tbl problems stdin n ++
      (match problems[n]? with
        | some problem =>
          [promptText n problem,
            if ValidateAnswer tbl problem (TrimSpace (stdin.getD n "")) then correctText
            else incorrectText problem]
        | none => [])

/-- The output of a run of `PlayQuiz` in which every answer is marked correct. -/
def allCorrectTranscript : Nat → List Problem → List String
  | _, [] => []
  | index, problem :: rest =>
    promptText index problem :: correctText :: allCorrectTranscript (index + 1) rest

/-! ## Sample data: the scenario of the specification -/

/-- The rows of the scenario. -/
def sampleRows : List (List String) :=
  [["2+2", "4"], ["capital of France", "Paris"]]

/-- A file system whose only file is `./problems.csv`, holding the rows of the
scenario. -/
def sampleFsys : String → Option (List (List String)) :=
  fun name => if name = "./problems.csv" then some sampleRows else none

/-- The quiz `InitQuiz` builds from the rows of the scenario. -/
def sampleQuiz : Quiz :=
  { Problems := [{ Question := "2+2", Answer := "4" },
                 { Question := "capital of France", Answer := "Paris" }],
    Score := 0 }

/-- The default flags, with `-score` set to `score`. -/
def sampleFlags (score : Nat) : QuizFlags :=
  { TimeLimit := 30, FileName := "./problems.csv", CorrectScore := score }

/-- A quiz whose stored answer carries a leading space, as the row `2+2, 4` gives. -/
def paddedQuiz : Quiz :=
  { Problems := [{ Question := "2+2", Answer := " 4" }], Score := 0 }

/-! ## Lemmas on trimming -/

section ListLemmas
variable {α β : Type}

theorem rdropWhile_cons (p : α → Bool) (a : α) (l : List α) :
    (a :: l).rdropWhile p =
      if ((l.rdropWhile p).isEmpty && p a) = true then [] else a :: l.rdropWhile p := by
  induction l using List.reverseRecOn generalizing a with
  | nil => simp [List.rdropWhile_singleton]
  | append_singleton l x ih =>
    rw [← List.cons_append, List.rdropWhile_concat, List.rdropWhile_concat]
    by_cases hx : p x = true
    · simp only [hx, if_true]
      exact ih a
    · simp [hx]

theorem dropWhile_rdropWhile_comm (p q : α → Bool) (l : List α) :
    (l.rdropWhile q).dropWhile p = (l.dropWhile p).rdropWhile q := by
  induction l with
  | nil => simp
  | cons a l ih =>
    rw [rdropWhile_cons]
    by_cases hp : p a = true
    · rw [List.dropWhile_cons_of_pos hp, ← ih]
      split
      · next h =>
        simp only [Bool.and_eq_true, List.isEmpty_iff] at h
        simp [h.1]
      · rw [List.dropWhile_cons_of_pos hp]
    · rw [List.dropWhile_cons_of_neg hp, rdropWhile_cons]
      split
      · simp
      · rw [List.dropWhile_cons_of_neg hp]

theorem dropWhile_dropWhile_of_imp (p q : α → Bool) (h : ∀ a, p a = true → q a = true)
    (l : List α) : (l.dropWhile p).dropWhile q = l.dropWhile q := by
  induction l with
  | nil => simp
  | cons a l ih =>
    by_cases hp : p a = true
    · rw [List.dropWhile_cons_of_pos hp, List.dropWhile_cons_of_pos (h a hp), ih]
    · rw [List.dropWhile_cons_of_neg hp]

theorem rdropWhile_rdropWhile_of_imp (p q : α → Bool) (h : ∀ a, p a = true → q a = true)
    (l : List α) : (l.rdropWhile p).rdropWhile q = l.rdropWhile q := by
  simp only [List.rdropWhile, List.reverse_reverse]
  rw [dropWhile_dropWhile_of_imp p q h]

theorem map_dropWhile_of_comp (f : α → α) (p : α → Bool) (h : ∀ a, p (f a) = p a)
    (l : List α) : (l.dropWhile p).map f = (l.map f).dropWhile p := by
  induction l with
  | nil => simp
  | cons a l ih =>
    by_cases hp : p a = true
    · have hf : p (f a) = true := by rw [h, hp]
      rw [List.dropWhile_cons_of_pos hp, List.map_cons, List.dropWhile_cons_of_pos hf, ih]
    · have hf : ¬ p (f a) = true := by rw [h]; exact hp
      rw [List.dropWhile_cons_of_neg hp, List.map_cons, List.dropWhile_cons_of_neg hf]

theorem map_rdropWhile_of_comp (f : α → α) (p : α → Bool) (h : ∀ a, p (f a) = p a)
    (l : List α) : (l.rdropWhile p).map f = (l.map f).rdropWhile p := by
  simp only [List.rdropWhile, List.map_reverse]
  rw [map_dropWhile_of_comp f p h, List.map_reverse]

theorem dropWhile_of_dropWhile_imp (p q : α → Bool) (h : ∀ a, p a = true → q a = true)
    (l : List α) : (l.dropWhile q).dropWhile p = l.dropWhile q := by
  induction l with
  | nil => simp
  | cons a l ih =>
    by_cases hq : q a = true
    · rw [List.dropWhile_cons_of_pos hq, ih]
    · have hp : ¬ p a = true := fun hp => hq (h a hp)
      rw [List.dropWhile_cons_of_neg hq, List.dropWhile_cons_of_neg hp]

theorem rdropWhile_of_rdropWhile_imp (p q : α → Bool) (h : ∀ a, p a = true → q a = true)
    (l : List α) : (l.rdropWhile q).rdropWhile p = l.rdropWhile q := by
  simp only [List.rdropWhile, List.reverse_reverse]
  rw [dropWhile_of_dropWhile_imp p q h]

end ListLemmas

theorem inCutset_eq_cutsetWhitespace : inCutset "\n\r\t" = cutsetWhitespace := by
  funext r
  have hdata : ("\n\r\t" : String).data = ['\n', '\r', '\t'] := rfl
  simp only [inCutset, cutsetWhitespace, hdata, List.mem_cons, List.mem_singleton,
    List.not_mem_nil, or_false, Bool.decide_or]
  cases decide (r = '\n') <;> cases decide (r = '\r') <;> cases decide (r = '\t') <;> rfl

theorem Trim_cutset_data (s : String) :
    (Trim s "\n\r\t").data =
      (s.data.rdropWhile cutsetWhitespace).dropWhile cutsetWhitespace := by
  unfold Trim
  split
  · next h =>
    rcases h with h | h
    · subst h
      rfl
    · exact absurd h (by decide)
  · simp only [TrimLeftFunc, TrimRightFunc, inCutset_eq_cutsetWhitespace]

theorem Trim_cutset_eq_specNormalize (tbl : Char → Char) (s : String) :
    ToLower tbl (Trim s "\n\r\t") = specNormalize tbl cutsetWhitespace s := by
  simp only [ToLower, specNormalize, Trim_cutset_data, dropWhile_rdropWhile_comm]

theorem ValidateAnswer_iff (tbl : Char → Char) (p : Problem) (s : String) :
    ValidateAnswer tbl p s = true ↔
      specNormalize tbl cutsetWhitespace s = specNormalize tbl cutsetWhitespace p.Answer := by
  simp only [ValidateAnswer, decide_eq_true_eq, Trim_cutset_eq_specNormalize]

theorem TrimSpace_data (s : String) :
    (TrimSpace s).data = (s.data.dropWhile IsSpace).rdropWhile IsSpace := rfl

theorem trim_absorb {α : Type} (p q : α → Bool) (h : ∀ a, p a = true → q a = true)
    (l : List α) :
    (((l.dropWhile p).rdropWhile p).dropWhile q).rdropWhile q
      = (l.dropWhile q).rdropWhile q := by
  rw [dropWhile_rdropWhile_comm q p, dropWhile_dropWhile_of_imp p q h,
    rdropWhile_rdropWhile_of_imp p q h]

theorem trim_map {α : Type} (f : α → α) (p : α → Bool) (h : ∀ a, p (f a) = p a)
    (l : List α) :
    ((l.dropWhile p).rdropWhile p).map f = ((l.map f).dropWhile p).rdropWhile p := by
  rw [map_rdropWhile_of_comp f p h, map_dropWhile_of_comp f p h]

theorem trim_of_trim_imp {α : Type} (p q : α → Bool) (h : ∀ a, p a = true → q a = true)
    (l : List α) :
    (((l.dropWhile q).rdropWhile q).dropWhile p).rdropWhile p
      = (l.dropWhile q).rdropWhile q := by
  rw [dropWhile_rdropWhile_comm p q, dropWhile_of_dropWhile_imp p q h,
    rdropWhile_of_rdropWhile_imp p q h]

theorem specNormalize_mono (tbl : Char → Char) (ws ws' : Char → Bool)
    (hsub : ∀ r, ws r = true → ws' r = true)
    (hlow : ∀ r, ws' (unicodeToLower tbl r) = ws' r) (s t : String)
    (h : specNormalize tbl ws s = specNormalize tbl ws t) :
    specNormalize tbl ws' s = specNormalize tbl ws' t := by
  have hd := congrArg String.data h
  simp only [specNormalize] at hd ⊢
  rw [← trim_absorb ws ws' hsub s.data, ← trim_absorb ws ws' hsub t.data,
    trim_map _ ws' hlow, trim_map _ ws' hlow, hd]

/-! ## Lemmas on lower-casing -/

theorem unicodeToLower_of_ascii (tbl : Char → Char) (r : Char) (h : r.toNat ≤ 0x7F) :
    unicodeToLower tbl r = asciiToLower r := by
  simp only [unicodeToLower, asciiToLower, h, if_true]

theorem unicodeToLower_of_not_ascii (tbl : Char → Char) (r : Char) (h : ¬ r.toNat ≤ 0x7F) :
    unicodeToLower tbl r = tbl r := by
  simp only [unicodeToLower, h, if_false]

theorem forall_ascii (P : Char → Prop) (h : ∀ n, n < 128 → P (Char.ofNat n)) (r : Char)
    (hr : r.toNat ≤ 0x7F) : P r := by
  have := h r.toNat (by omega)
  rwa [Char.ofNat_toNat] at this

set_option maxRecDepth 100000 in
theorem asciiToLower_IsSpace (r : Char) (hr : r.toNat ≤ 0x7F) :
    IsSpace (asciiToLower r) = IsSpace r :=
  forall_ascii (fun r => IsSpace (asciiToLower r) = IsSpace r) (by decide) r hr

set_option maxRecDepth 100000 in
theorem asciiToLower_specWhitespace (r : Char) (hr : r.toNat ≤ 0x7F) :
    specWhitespace (asciiToLower r) = specWhitespace r :=
  forall_ascii (fun r => specWhitespace (asciiToLower r) = specWhitespace r) (by decide) r hr

theorem unicodeToLower_IsSpace (tbl : Char → Char)
    (htbl : ∀ r, 0x7F < r.toNat → IsSpace (tbl r) = IsSpace r) (r : Char) :
    IsSpace (unicodeToLower tbl r) = IsSpace r := by
  by_cases hr : r.toNat ≤ 0x7F
  · rw [unicodeToLower_of_ascii tbl r hr, asciiToLower_IsSpace r hr]
  · rw [unicodeToLower_of_not_ascii tbl r hr, htbl r (by omega)]

theorem unicodeToLower_specWhitespace (tbl : Char → Char)
    (htbl : ∀ r, 0x7F < r.toNat → specWhitespace (tbl r) = specWhitespace r) (r : Char) :
    specWhitespace (unicodeToLower tbl r) = specWhitespace r := by
  by_cases hr : r.toNat ≤ 0x7F
  · rw [unicodeToLower_of_ascii tbl r hr, asciiToLower_specWhitespace r hr]
  · rw [unicodeToLower_of_not_ascii tbl r hr, htbl r (by omega)]

theorem cutsetWhitespace_imp_specWhitespace (r : Char) (h : cutsetWhitespace r = true) :
    specWhitespace r = true := by
  simp only [cutsetWhitespace, specWhitespace, Bool.or_eq_true, decide_eq_true_eq] at h ⊢
  tauto

set_option maxRecDepth 100000 in
theorem specWhitespace_imp_IsSpace (r : Char) (h : specWhitespace r = true) :
    IsSpace r = true := by
  simp only [specWhitespace, Bool.or_eq_true, decide_eq_true_eq] at h
  rcases h with ((h | h) | h) | h <;> subst h <;> decide

theorem cutsetWhitespace_imp_IsSpace (r : Char) (h : cutsetWhitespace r = true) :
    IsSpace r = true :=
  specWhitespace_imp_IsSpace r (cutsetWhitespace_imp_specWhitespace r h)

/-! ## Lemmas on the loop of `PlayQuiz` -/

theorem ReadString_drop (stdin : List String) (n : Nat) :
    ReadString (stdin.drop n) = (stdin.getD n "", stdin.drop (n + 1)) := by
  induction stdin generalizing n with
  | nil => simp [ReadString]
  | cons line rest ih =>
    cases n with
    | zero => simp [ReadString]
    | succ n => simpa using ih n

theorem wrapUint_add_wrapUint (a c : Nat) : wrapUint (wrapUint a + c) = wrapUint (a + c) := by
  simp only [wrapUint, Nat.mod_add_mod]

theorem wrapUint_of_lt (a : Nat) (h : a < 2 ^ 64) : wrapUint a = a :=
  Nat.mod_eq_of_lt h

/-- The session after `n` iterations, in closed form. -/
theorem PlayQuizIter_spec (tbl : Char → Char) (flags : QuizFlags) (quiz : Quiz)
    (stdin : List String) (h0 : quiz.Score = 0) (n : Nat) :
    PlayQuizIter tbl flags n (startSession quiz stdin) =
      { quiz := { Problems := quiz.Problems,
                  Score := wrapUint (correctCount tbl quiz.Problems stdin n
                    * flags.CorrectScore) },
        index := min n quiz.Problems.length,
        stdin := stdin.drop (min n quiz.Problems.length),
        stdout := transcript tbl quiz.Problems stdin n } := by
  induction n with
  | zero =>
    obtain ⟨problems, score⟩ := quiz
    simp only at h0
    subst h0
    simp [PlayQuizIter, startSession, correctCount, transcript, wrapUint]
  | succ n ih =>
    rw [PlayQuizIter, ih]
    by_cases hn : n < quiz.Problems.length
    · have hmin : min n quiz.Problems.length = n := Nat.min_eq_left (Nat.le_of_lt hn)
      have hmin1 : min (n + 1) quiz.Problems.length = n + 1 := Nat.min_eq_left hn
      have hget : quiz.Problems[n]? = some (quiz.Problems[n]) := List.getElem?_eq_getElem hn
      simp only [PlayQuizStep, hmin, hmin1, hget, PlayQuizBody, ReadString_drop,
        correctCount, transcript, IncrementScore]
      by_cases hv : ValidateAnswer tbl quiz.Problems[n] (TrimSpace (stdin.getD n "")) = true
      · simp only [hv, if_true, wrapUint_add_wrapUint, Nat.add_mul, Nat.one_mul,
          List.append_assoc, List.singleton_append]
      · simp only [hv, Bool.false_eq_true, if_false, Nat.add_zero, List.append_assoc,
          List.singleton_append]
    · have hle : quiz.Problems.length ≤ n := Nat.le_of_not_lt hn
      have hmin : min n quiz.Problems.length = quiz.Problems.length := Nat.min_eq_right hle
      have hmin1 : min (n + 1) quiz.Problems.length = quiz.Problems.length :=
        Nat.min_eq_right (Nat.le_succ_of_le hle)
      have hget : quiz.Problems[n]? = none := List.getElem?_eq_none hle
      have hget2 : quiz.Problems[quiz.Problems.length]? = none :=
        List.getElem?_eq_none (Nat.le_refl _)
      simp only [PlayQuizStep, hmin, hmin1, hget, hget2, correctCount, transcript,
        Nat.add_zero, List.append_nil]

theorem correctCount_le (tbl : Char → Char) (problems : List Problem) (stdin : List String)
    (n : Nat) :
    correctCount tbl problems stdin n ≤ n ∧
      correctCount tbl problems stdin n ≤ problems.length := by
  induction n with
  | zero => simp [correctCount]
  | succ n ih =>
    simp only [correctCount]
    by_cases hn : n < problems.length
    · rw [List.getElem?_eq_getElem hn]
      by_cases hv :
          ValidateAnswer tbl problems[n] (TrimSpace (stdin.getD n "")) = true
      · simp only [hv, if_true]
        omega
      · simp only [hv, Bool.false_eq_true, if_false]
        omega
    · rw [List.getElem?_eq_none (Nat.le_of_not_lt hn)]
      simp only [Nat.add_zero]
      omega

theorem correctCount_of_all (tbl : Char → Char) (problems : List Problem)
    (stdin : List String) (n : Nat) (hn : n ≤ problems.length)
    (hok : ∀ i p, i < n → problems[i]? = some p →
      ValidateAnswer tbl p (TrimSpace (stdin.getD i "")) = true) :
    correctCount tbl problems stdin n = n := by
  induction n with
  | zero => rfl
  | succ n ih =>
    have hlt : n < problems.length := hn
    have ih := ih (Nat.le_of_lt hlt) (fun i p hi hp => hok i p (Nat.lt_succ_of_lt hi) hp)
    have hget : problems[n]? = some (problems[n]) := List.getElem?_eq_getElem hlt
    simp only [correctCount, ih, hget, hok n _ (Nat.lt_succ_self n) hget, if_true]

/-! ## Answer validation -/

/-- C1, as stated, fails: the candidate `" 4"` differs from the stored answer `"4"`
only by a leading space, so the two are equal after trimming spaces, tabs, newlines
and carriage returns and lower-casing, and yet `ValidateAnswer` returns false, for
every case table. -/
theorem ValidateAnswer_leading_space_rejected :
    (∀ tbl : Char → Char,
      specNormalize tbl specWhitespace " 4" = specNormalize tbl specWhitespace "4") ∧
    (∀ tbl : Char → Char,
      ValidateAnswer tbl { Question := "2+2", Answer := "4" } " 4" = false) :=
  ⟨fun _ => rfl, fun _ => rfl⟩

/-- C1, amended: if the candidate `s` and the stored answer differ only in letter case
and in leading or trailing tabs, newlines and carriage returns (the two are equal after
trimming these three runes and lower-casing), then `ValidateAnswer` returns true. -/
theorem ValidateAnswer_accepts (tbl : Char → Char) (p : Problem) (s : String)
    (h : specNormalize tbl cutsetWhitespace s
      = specNormalize tbl cutsetWhitespace p.Answer) :
    ValidateAnswer tbl p s = true :=
  (ValidateAnswer_iff tbl p s).2 h

/-- C1, amended, at the stored answer `"Paris"` and the candidate `"\tpaRis\r\n"`. -/
theorem ValidateAnswer_accepts_witness :
    specNormalize id cutsetWhitespace "\tpaRis\r\n"
        = specNormalize id cutsetWhitespace "Paris" ∧
      ValidateAnswer id { Question := "capital of France", Answer := "Paris" }
        "\tpaRis\r\n" = true :=
  ⟨by decide, ValidateAnswer_accepts id _ _ (by decide)⟩

/-- C2: a candidate that `ValidateAnswer` accepts equals the stored answer after
trimming and lower-casing, and a candidate that differs from it after trimming and
lower-casing is rejected. This holds for the runes of the cutset (tabs, newlines,
carriage returns), and for every larger class `ws` of whitespace that lower-casing
respects, such as the class with the space added. -/
theorem ValidateAnswer_sound (tbl : Char → Char) (p : Problem) (s : String) :
    (ValidateAnswer tbl p s = true →
      specNormalize tbl cutsetWhitespace s = specNormalize tbl cutsetWhitespace p.Answer) ∧
    (specNormalize tbl cutsetWhitespace s ≠ specNormalize tbl cutsetWhitespace p.Answer →
      ValidateAnswer tbl p s = false) ∧
    (∀ ws : Char → Bool, (∀ r, cutsetWhitespace r = true → ws r = true) →
      (∀ r, ws (unicodeToLower tbl r) = ws r) →
      (ValidateAnswer tbl p s = true →
        specNormalize tbl ws s = specNormalize tbl ws p.Answer) ∧
      (specNormalize tbl ws s ≠ specNormalize tbl ws p.Answer →
        ValidateAnswer tbl p s = false)) := by
  have hiff := ValidateAnswer_iff tbl p s
  refine ⟨hiff.1, fun hne => ?_, fun ws hsub hlow => ?_⟩
  · cases hv : ValidateAnswer tbl p s
    · rfl
    · exact absurd (hiff.1 hv) hne
  · have hmono : ValidateAnswer tbl p s = true →
        specNormalize tbl ws s = specNormalize tbl ws p.Answer := fun hv =>
      specNormalize_mono tbl cutsetWhitespace ws hsub hlow s p.Answer (hiff.1 hv)
    refine ⟨hmono, fun hne => ?_⟩
    cases hv : ValidateAnswer tbl p s
    · rfl
    · exact absurd (hmono hv) hne

/-- C2 at the stored answer `"4"`, with the space counted as whitespace: the candidates
`"4.0"`, `"4 0"` and `"5"` differ from it after trimming and lower-casing and are
rejected, and the accepted candidate `"4\n"` equals it after trimming. -/
theorem ValidateAnswer_sound_witness :
    ValidateAnswer id { Question := "2+2", Answer := "4" } "4.0" = false ∧
    ValidateAnswer id { Question := "2+2", Answer := "4" } "4 0" = false ∧
    ValidateAnswer id { Question := "2+2", Answer := "4" } "5" = false ∧
    specNormalize id specWhitespace "4\n" = specNormalize id specWhitespace "4" := by
  have hlow : ∀ r, specWhitespace (unicodeToLower id r) = specWhitespace r :=
    unicodeToLower_specWhitespace id (fun _ _ => rfl)
  have h (s : String) := ((ValidateAnswer_sound id { Question := "2+2", Answer := "4" } s).2.2
    specWhitespace cutsetWhitespace_imp_specWhitespace hlow)
  exact ⟨(h "4.0").2 (by decide), (h "4 0").2 (by decide), (h "5").2 (by decide),
    (h "4\n").1 (by decide)⟩

/-! ## Scoring -/

theorem InitQuiz_score (fsys : String → Option (List (List String))) (flags : QuizFlags)
    (quiz : Quiz) (h : InitQuiz fsys flags = some quiz) : quiz.Score = 0 := by
  unfold InitQuiz at h
  split at h
  · cases h
  · split at h
    · cases h
    · cases h
      rfl

/-- C3, as stated, fails: with `-score 9223372036854775808` both answers of the
scenario pass `ValidateAnswer`, raw and trimmed, and after the second problem the
score is 0, not `2 * 9223372036854775808`: the `uint` addition wrapped around. And
where the stored answer is `" 4"`, the input line `" 4"` passes `ValidateAnswer` as it
is typed, but `PlayQuiz` validates the trimmed line `"4"`, and the score stays 0. -/
theorem PlayQuiz_score_wraps :
    (∀ tbl : Char → Char,
      ValidateAnswer tbl { Question := "2+2", Answer := "4" } "4\n" = true ∧
      ValidateAnswer tbl { Question := "2+2", Answer := "4" } (TrimSpace "4\n") = true ∧
      ValidateAnswer tbl { Question := "capital of France", Answer := "Paris" }
        "Paris\n" = true ∧
      ValidateAnswer tbl { Question := "capital of France", Answer := "Paris" }
        (TrimSpace "Paris\n") = true) ∧
    (∀ tbl : Char → Char,
      (PlayQuizIter tbl (sampleFlags (2 ^ 63)) 2
        (startSession sampleQuiz ["4\n", "Paris\n"])).quiz.Score = 0) ∧
    2 * (sampleFlags (2 ^ 63)).CorrectScore ≠ 0 ∧
    (∀ tbl : Char → Char,
      ValidateAnswer tbl { Question := "2+2", Answer := " 4" } " 4" = true ∧
      (PlayQuizIter tbl (sampleFlags 5) 1 (startSession paddedQuiz [" 4"])).quiz.Score
        = 0) ∧
    1 * (sampleFlags 5).CorrectScore ≠ 0 :=
  ⟨fun _ => ⟨rfl, rfl, rfl, rfl⟩,
    fun tbl => by
      rw [PlayQuizIter_spec tbl _ sampleQuiz _ rfl 2]
      have hcount : correctCount tbl sampleQuiz.Problems ["4\n", "Paris\n"] 2 = 2 := rfl
      simp only [hcount]
      decide,
    by decide,
    fun tbl => ⟨rfl, by
      rw [PlayQuizIter_spec tbl _ paddedQuiz _ rfl 1]
      have hcount : correctCount tbl paddedQuiz.Problems [" 4"] 1 = 0 := rfl
      simp only [hcount]
      decide⟩,
    by decide⟩

/-- C3, amended: for a quiz starting at score 0, a per-correct value `c` and
`N ≤ len(Problems)`, if for each of the first `N` problems the input line, trimmed by
`strings.TrimSpace` as `PlayQuiz` does, passes `ValidateAnswer`, then after the `N`-th
iteration the score is `N * c` reduced modulo `2 ^ 64`; it is `N * c` whenever
`N * c < 2 ^ 64`. -/
theorem PlayQuiz_score_after_correct (tbl : Char → Char) (flags : QuizFlags) (quiz : Quiz)
    (stdin : List String) (N : Nat) (h0 : quiz.Score = 0)
    (hN : N ≤ quiz.Problems.length)
    (hok : ∀ i p, i < N → quiz.Problems[i]? = some p →
      ValidateAnswer tbl p (TrimSpace (stdin.getD i "")) = true) :
    (PlayQuizIter tbl flags N (startSession quiz stdin)).quiz.Score
        = wrapUint (N * flags.CorrectScore) ∧
      (N * flags.CorrectScore < 2 ^ 64 →
        (PlayQuizIter tbl flags N (startSession quiz stdin)).quiz.Score
          = N * flags.CorrectScore) := by
  have hs : (PlayQuizIter tbl flags N (startSession quiz stdin)).quiz.Score
      = wrapUint (N * flags.CorrectScore) := by
    rw [PlayQuizIter_spec tbl flags quiz stdin h0 N,
      correctCount_of_all tbl quiz.Problems stdin N hN hok]
  exact ⟨hs, fun hlt => by rw [hs, wrapUint_of_lt _ hlt]⟩

/-- C3, amended, at the scenario: after the answers `"4"` and `" paris\n"` with 5 points
per correct answer the score is 10. -/
theorem PlayQuiz_score_after_correct_witness :
    (PlayQuizIter id (sampleFlags 5) 2
      (startSession sampleQuiz ["4", " paris\n"])).quiz.Score = 10 :=
  (PlayQuiz_score_after_correct id (sampleFlags 5) sampleQuiz ["4", " paris\n"] 2 rfl
    (by decide)
    (by
      intro i p hi hp
      have hcases : i = 0 ∨ i = 1 := by omega
      rcases hcases with rfl | rfl
      · obtain rfl : { Question := "2+2", Answer := "4" } = p := by
          simpa [sampleQuiz] using hp
        decide
      · obtain rfl : { Question := "capital of France", Answer := "Paris" } = p := by
          simpa [sampleQuiz] using hp
        decide)).2 (by decide)

/-- C4, as stated, fails: with `-score 9223372036854775809` and both answers of the
scenario correct, the quiz `InitQuiz` built has score 2 after the second iteration, and
2 is not a multiple of the per-correct value. -/
theorem PlayQuiz_score_not_multiple :
    InitQuiz sampleFsys (sampleFlags (2 ^ 63 + 1)) = some sampleQuiz ∧
    (∀ tbl : Char → Char,
      (PlayQuizIter tbl (sampleFlags (2 ^ 63 + 1)) 2
        (startSession sampleQuiz ["4", "Paris"])).quiz.Score = 2) ∧
    ¬ ((sampleFlags (2 ^ 63 + 1)).CorrectScore ∣ 2) :=
  ⟨by decide,
    fun tbl => by
      rw [PlayQuizIter_spec tbl _ sampleQuiz _ rfl 2]
      have hcount : correctCount tbl sampleQuiz.Problems ["4", "Paris"] 2 = 2 := rfl
      simp only [hcount]
      decide,
    by decide⟩

/-- C4, amended: after any number `n` of iterations of `PlayQuiz`, for any input, on a
quiz built by `InitQuiz` with per-correct value `c`, the score is `k * c` reduced modulo
`2 ^ 64` for some `k` that is at most `n` and at most `len(Problems)`; whenever
`len(Problems) * c < 2 ^ 64` the score is a multiple of `c` and at most
`len(Problems) * c`. -/
theorem PlayQuiz_score_invariant (tbl : Char → Char)
    (fsys : String → Option (List (List String))) (flags : QuizFlags) (quiz : Quiz)
    (stdin : List String) (n : Nat) (hinit : InitQuiz fsys flags = some quiz) :
    (∃ k, k ≤ n ∧ k ≤ quiz.Problems.length ∧
      (PlayQuizIter tbl flags n (startSession quiz stdin)).quiz.Score
        = wrapUint (k * flags.CorrectScore)) ∧
    (quiz.Problems.length * flags.CorrectScore < 2 ^ 64 →
      flags.CorrectScore ∣ (PlayQuizIter tbl flags n (startSession quiz stdin)).quiz.Score ∧
      (PlayQuizIter tbl flags n (startSession quiz stdin)).quiz.Score
        ≤ quiz.Problems.length * flags.CorrectScore) := by
  have h0 := InitQuiz_score fsys flags quiz hinit
  have hk := correctCount_le tbl quiz.Problems stdin n
  have hs := PlayQuizIter_spec tbl flags quiz stdin h0 n
  refine ⟨⟨correctCount tbl quiz.Problems stdin n, hk.1, hk.2, by rw [hs]⟩, fun hlt => ?_⟩
  have hle : correctCount tbl quiz.Problems stdin n * flags.CorrectScore
      ≤ quiz.Problems.length * flags.CorrectScore := Nat.mul_le_mul_right _ hk.2
  rw [hs]
  simp only [wrapUint_of_lt _ (Nat.lt_of_le_of_lt hle hlt)]
  exact ⟨Nat.dvd_mul_left _ _, hle⟩

/-- C4, amended, at the scenario with 5 points per correct answer, after one iteration
with a wrong answer and after two. -/
theorem PlayQuiz_score_invariant_witness :
    InitQuiz sampleFsys (sampleFlags 5) = some sampleQuiz ∧
    (5 ∣ (PlayQuizIter id (sampleFlags 5) 2
        (startSession sampleQuiz ["5", "paris"])).quiz.Score ∧
      (PlayQuizIter id (sampleFlags 5) 2
        (startSession sampleQuiz ["5", "paris"])).quiz.Score ≤ 2 * 5) :=
  ⟨by decide,
    (PlayQuiz_score_invariant id sampleFsys (sampleFlags 5) sampleQuiz ["5", "paris"] 2
      (by decide)).2 (by decide)⟩

/-! ## The score report -/

theorem wrapInt_of_range (z : Int) (hlo : -(2 ^ 63) ≤ z) (hhi : z < 2 ^ 63) :
    wrapInt z = z := by
  simp only [wrapInt, uintSize]
  norm_num at hlo hhi ⊢
  omega

theorem uintToInt_of_lt (c : Nat) (h : c < 2 ^ 63) : uintToInt c = Int.ofNat c := by
  unfold uintToInt
  apply wrapInt_of_range
  · have : (0 : Int) ≤ Int.ofNat c := Int.ofNat_nonneg c
    norm_num
    omega
  · have : Int.ofNat c < Int.ofNat (2 ^ 63) := Int.ofNat_lt.2 h
    simpa using this

theorem reportTotal_of_lt (quiz : Quiz) (c : Nat)
    (h : quiz.Problems.length * c < 2 ^ 63) :
    reportTotal quiz (uintToInt c) = Int.ofNat (quiz.Problems.length * c) := by
  unfold reportTotal
  rcases Nat.eq_zero_or_pos quiz.Problems.length with hz | hpos
  · rw [hz]
    simp [wrapInt, uintSize]
  · have hc : c < 2 ^ 63 :=
      Nat.lt_of_le_of_lt (Nat.le_mul_of_pos_left c hpos) h
    rw [uintToInt_of_lt c hc]
    have hmul : Int.ofNat quiz.Problems.length * Int.ofNat c
        = Int.ofNat (quiz.Problems.length * c) := by simp
    rw [hmul]
    apply wrapInt_of_range
    · have : (0 : Int) ≤ Int.ofNat (quiz.Problems.length * c) := Int.ofNat_nonneg _
      norm_num
      omega
    · have : Int.ofNat (quiz.Problems.length * c) < Int.ofNat (2 ^ 63) := Int.ofNat_lt.2 h
      simpa using this

theorem fmtInt_ofNat (n : Nat) : fmtInt (Int.ofNat n) = fmtUint n := rfl

theorem PromptScoreMessage_of_lt (quiz : Quiz) (c : Nat)
    (h : quiz.Problems.length * c < 2 ^ 63) :
    PromptScoreMessage quiz (uintToInt c) =
      "\nYou scored " ++ fmtUint quiz.Score ++ " out of "
        ++ fmtUint (quiz.Problems.length * c) ++ "!" := by
  simp only [PromptScoreMessage, reportTotal_of_lt quiz c h, fmtInt_ofNat]

/-- C5, as stated, fails: on the two problems of the scenario the report after
`-score 9223372036854775808` ends in `out of 0!` and the report after
`-score 4611686018427387904` ends in `out of -9223372036854775808!`, where
`len(quiz.Problems) * c` is `18446744073709551616` and `9223372036854775808`. -/
theorem PromptScoreMessage_total_wraps :
    PromptScoreMessage sampleQuiz (uintToInt (sampleFlags (2 ^ 63)).CorrectScore)
      = "\nYou scored 0 out of 0!" ∧
    sampleQuiz.Problems.length * (sampleFlags (2 ^ 63)).CorrectScore
      = 18446744073709551616 ∧
    PromptScoreMessage sampleQuiz (uintToInt (sampleFlags (2 ^ 62)).CorrectScore)
      = "\nYou scored 0 out of -9223372036854775808!" ∧
    sampleQuiz.Problems.length * (sampleFlags (2 ^ 62)).CorrectScore
      = 9223372036854775808 := by
  decide

/-- C5, amended: for every session, whatever its score and however many problems were
answered, and every per-correct value `c` with `len(quiz.Problems) * c < 2 ^ 63`, the
total of the score report is `len(quiz.Problems) * c`, both in the report `main` writes
after `PlayQuiz` returns and in the report the goroutine writes when the timer fires. -/
theorem report_total (flags : QuizFlags) (s : Session)
    (h : s.quiz.Problems.length * flags.CorrectScore < 2 ^ 63) :
    reportTotal s.quiz (uintToInt flags.CorrectScore)
      = Int.ofNat (s.quiz.Problems.length * flags.CorrectScore) ∧
    (mainAfterPlay flags s).stdout =
      s.stdout ++ ["\nYou scored " ++ fmtUint s.quiz.Score ++ " out of "
        ++ fmtUint (s.quiz.Problems.length * flags.CorrectScore) ++ "!",
        "\nTime is up!\n"] ∧
    (mainTimerFired flags s).stdout =
      s.stdout ++ ["\nYou scored " ++ fmtUint s.quiz.Score ++ " out of "
        ++ fmtUint (s.quiz.Problems.length * flags.CorrectScore) ++ "!",
        "\nTime is up!\n"] := by
  refine ⟨reportTotal_of_lt _ _ h, ?_, ?_⟩
  · simp only [mainAfterPlay, ExitOnTimeUp, PromptScoreMessage_of_lt _ _ h,
      List.append_assoc, List.singleton_append]
  · simp only [mainTimerFired, ExitOnTimeUp, PromptScoreMessage_of_lt _ _ h,
      List.append_assoc, List.singleton_append]

/-- C5, amended, at the scenario with 5 points per correct answer, before any answer
and with the timer firing after the first answer. -/
theorem report_total_witness :
    sampleQuiz.Problems.length * (sampleFlags 5).CorrectScore < 2 ^ 63 ∧
    reportTotal sampleQuiz (uintToInt (sampleFlags 5).CorrectScore) = 10 ∧
    (mainTimerFired (sampleFlags 5)
      (PlayQuizIter id (sampleFlags 5) 1 (startSession sampleQuiz ["4"]))).stdout =
      ["Q1: 2+2? ", "Correct!\n", "\nYou scored 5 out of 10!", "\nTime is up!\n"] :=
  ⟨by decide, (report_total (sampleFlags 5) (startSession sampleQuiz []) (by decide)).1,
    (report_total (sampleFlags 5)
      (PlayQuizIter id (sampleFlags 5) 1 (startSession sampleQuiz ["4"])) (by decide)).2.2⟩

/-! ## Loading the problems -/

theorem ReadProblemsFromCsv_eq_map (csvData : List (List String))
    (h : ∀ row ∈ csvData, 2 ≤ row.length) :
    ReadProblemsFromCsv csvData =
      some (csvData.map fun row =>
        { Question := row.getD 0 "", Answer := row.getD 1 "" }) := by
  induction csvData with
  | nil => rfl
  | cons data rest ih =>
    have hrow : 2 ≤ data.length := h data (List.mem_cons_self _ _)
    have ih := ih (fun row hmem => h row (List.mem_cons_of_mem _ hmem))
    match data, hrow with
    | question :: answer :: more, _ =>
      simp [ReadProblemsFromCsv, ih]

/-- C6: on a table in which each row has at least two fields `ReadProblemsFromCsv` does
not panic; it returns as many problems as there are rows, and the problem at index `i`
has field 0 of row `i` as its question and field 1 of row `i` as its answer. -/
theorem ReadProblemsFromCsv_spec (csvData : List (List String))
    (h : ∀ row ∈ csvData, 2 ≤ row.length) :
    ∃ problems, ReadProblemsFromCsv csvData = some problems ∧
      problems.length = csvData.length ∧
      ∀ (i : Nat) (row : List String), csvData[i]? = some row →
        ∃ question answer, row[0]? = some question ∧ row[1]? = some answer ∧
          problems[i]? = some (Problem.mk question answer) := by
  refine ⟨_, ReadProblemsFromCsv_eq_map csvData h, by simp, ?_⟩
  intro i row hrow
  have hmem : row ∈ csvData := List.getElem?_mem hrow
  have hlen : 2 ≤ row.length := h row hmem
  match row, hlen with
  | question :: answer :: more, _ =>
    exact ⟨question, answer, by simp, by simp, by simp [List.getElem?_map, hrow]⟩

/-- C6 at the rows of the scenario, the second one with a third field. -/
theorem ReadProblemsFromCsv_spec_witness :
    ∃ problems,
      ReadProblemsFromCsv [["2+2", "4"], ["capital of France", "Paris", "Europe"]]
        = some problems ∧
      problems.length = 2 ∧
      ∀ (i : Nat) (row : List String),
        [["2+2", "4"], ["capital of France", "Paris", "Europe"]][i]? = some row →
        ∃ question answer, row[0]? = some question ∧ row[1]? = some answer ∧
          problems[i]? = some (Problem.mk question answer) :=
  ReadProblemsFromCsv_spec [["2+2", "4"], ["capital of France", "Paris", "Europe"]]
    (by decide)

/-! ## The session -/

theorem ValidateAnswer_TrimSpace (tbl : Char → Char) (p : Problem) (line : String)
    (hstored : Trim p.Answer "\n\r\t" = TrimSpace p.Answer)
    (h : specNormalize tbl IsSpace line = specNormalize tbl IsSpace p.Answer) :
    ValidateAnswer tbl p (TrimSpace line) = true := by
  rw [ValidateAnswer_iff]
  have hline : specNormalize tbl cutsetWhitespace (TrimSpace line)
      = specNormalize tbl IsSpace line := by
    simp only [specNormalize, TrimSpace_data,
      trim_of_trim_imp cutsetWhitespace IsSpace cutsetWhitespace_imp_IsSpace]
  have hans : specNormalize tbl cutsetWhitespace p.Answer
      = specNormalize tbl IsSpace p.Answer := by
    rw [← Trim_cutset_eq_specNormalize, hstored]
    simp only [ToLower, specNormalize, TrimSpace_data]
  rw [hline, hans, h]

theorem allCorrectTranscript_append (index : Nat) (problems : List Problem) (p : Problem) :
    allCorrectTranscript index (problems ++ [p]) =
      allCorrectTranscript index problems
        ++ [promptText (index + problems.length) p, correctText] := by
  induction problems generalizing index with
  | nil => simp [allCorrectTranscript]
  | cons q rest ih =>
    have hidx : index + 1 + rest.length = index + (rest.length + 1) := by omega
    rw [List.cons_append, allCorrectTranscript, allCorrectTranscript, ih (index + 1),
      List.length_cons, hidx]
    rfl

theorem transcript_of_all (tbl : Char → Char) (problems : List Problem)
    (stdin : List String) (n : Nat) (hn : n ≤ problems.length)
    (hok : ∀ i p, i < n → problems[i]? = some p →
      ValidateAnswer tbl p (TrimSpace (stdin.getD i "")) = true) :
    transcript tbl problems stdin n = allCorrectTranscript 0 (problems.take n) := by
  induction n with
  | zero => simp [transcript, allCorrectTranscript]
  | succ n ih =>
    have hlt : n < problems.length := hn
    have ih := ih (Nat.le_of_lt hlt) (fun i p hi hp => hok i p (Nat.lt_succ_of_lt hi) hp)
    have hget : problems[n]? = some (problems[n]) := List.getElem?_eq_getElem hlt
    have htake : problems.take (n + 1) = problems.take n ++ [problems[n]] := by
      rw [List.take_succ, hget]
      rfl
    have hlen : (problems.take n).length = n := by
      rw [List.length_take]
      exact Nat.min_eq_left (Nat.le_of_lt hlt)
    simp only [transcript, ih, hget, hok n _ (Nat.lt_succ_self n) hget, if_true, htake,
      allCorrectTranscript_append, hlen, Nat.zero_add]

/-- C7, a defect of the code. The CSV row `2+2, 4` stores the answer `" 4"`. `PlayQuiz`
strips the typed line with `strings.TrimSpace`, `ValidateAnswer` strips the stored
answer by `"\n\r\t"` only, so the space stays on one side of the comparison: the line
`" 4"`, which is the stored answer itself, is answered with the correction and the score
stays 0, where the claim has `Correct!` and the score `1 * 5`; the lines `"4\n"` and
`"  4  \n"` are rejected too. For the stored answer `"4"` the same line `" 4"` is
accepted. -/
theorem PlayQuiz_padded_answer_rejected :
    ReadProblemsFromCsv [["2+2", " 4"]] = some paddedQuiz.Problems ∧
    (∀ tbl : Char → Char,
      PlayQuiz tbl paddedQuiz (sampleFlags 5) [" 4"] =
        { quiz := paddedQuiz, index := 1, stdin := [],
          stdout := ["Q1: 2+2? ", "Incorrect answer! Correct answer was  4.\n"] }) ∧
    paddedQuiz.Score = 0 ∧
    paddedQuiz.Problems.length * (sampleFlags 5).CorrectScore = 5 ∧
    (∀ tbl : Char → Char,
      ValidateAnswer tbl { Question := "2+2", Answer := " 4" } (TrimSpace "4\n") = false ∧
      ValidateAnswer tbl { Question := "2+2", Answer := " 4" } (TrimSpace "  4  \n")
        = false) ∧
    (∀ tbl : Char → Char,
      ValidateAnswer tbl { Question := "2+2", Answer := "4" } (TrimSpace " 4") = true) :=
  ⟨rfl,
    fun tbl => by
      rw [PlayQuiz, PlayQuizIter_spec tbl _ paddedQuiz _ rfl]
      have hcount : correctCount tbl paddedQuiz.Problems [" 4"]
          paddedQuiz.Problems.length = 0 := rfl
      have hout : transcript tbl paddedQuiz.Problems [" 4"] paddedQuiz.Problems.length
          = ["Q1: 2+2? ", "Incorrect answer! Correct answer was  4.\n"] := rfl
      rw [hcount, hout]
      rfl,
    rfl, by decide, fun _ => ⟨rfl, rfl⟩, fun _ => rfl⟩

/-- In the scenario with `-score 9223372036854775808` both answers are marked correct and
the final score is 0: the `uint` score wraps around, as in C3. -/
theorem PlayQuiz_scenario_wraps :
    (∀ tbl : Char → Char,
      (PlayQuiz tbl sampleQuiz (sampleFlags (2 ^ 63)) ["4", " paris\n"]).quiz.Score = 0) ∧
    sampleQuiz.Problems.length * (sampleFlags (2 ^ 63)).CorrectScore ≠ 0 :=
  ⟨fun tbl => by
      rw [PlayQuiz, PlayQuizIter_spec tbl _ sampleQuiz _ rfl]
      have hcount : correctCount tbl sampleQuiz.Problems ["4", " paris\n"]
          sampleQuiz.Problems.length = 2 := rfl
      simp only [hcount]
      decide,
    by decide⟩

/-- Where the defect does not strike: on a quiz starting at score 0 whose stored answers
are such that `Trim(Answer, "\n\r\t")` equals `TrimSpace(Answer)`, with
`len(Problems) * c < 2 ^ 64` and one input line per problem, each equal to the stored
answer after trimming the surrounding whitespace and lower-casing, `PlayQuiz` prints
`Correct!` after every prompt and ends with the score `len(Problems) * c`. -/
theorem PlayQuiz_all_correct (tbl : Char → Char) (flags : QuizFlags) (quiz : Quiz)
    (stdin : List String) (h0 : quiz.Score = 0)
    (hlen : stdin.length = quiz.Problems.length)
    (hlines : ∀ (i : Nat) (line : String) (p : Problem),
      stdin[i]? = some line → quiz.Problems[i]? = some p →
      specNormalize tbl IsSpace line = specNormalize tbl IsSpace p.Answer)
    (hstored : ∀ p ∈ quiz.Problems, Trim p.Answer "\n\r\t" = TrimSpace p.Answer)
    (hc : quiz.Problems.length * flags.CorrectScore < 2 ^ 64) :
    (PlayQuiz tbl quiz flags stdin).stdout = allCorrectTranscript 0 quiz.Problems ∧
      (PlayQuiz tbl quiz flags stdin).quiz.Score
        = quiz.Problems.length * flags.CorrectScore := by
  have hok : ∀ i p, i < quiz.Problems.length → quiz.Problems[i]? = some p →
      ValidateAnswer tbl p (TrimSpace (stdin.getD i "")) = true := by
    intro i p hi hp
    have hi2 : i < stdin.length := by rw [hlen]; exact hi
    have hline : stdin[i]? = some (stdin[i]) := List.getElem?_eq_getElem hi2
    have hgetD : stdin.getD i "" = stdin[i] := by
      rw [List.getD_eq_getElem?_getD, hline]
      rfl
    rw [hgetD]
    exact ValidateAnswer_TrimSpace tbl p _ (hstored p (List.getElem?_mem hp))
      (hlines i _ p hline hp)
  rw [PlayQuiz, PlayQuizIter_spec tbl flags quiz stdin h0]
  simp only [correctCount_of_all tbl quiz.Problems stdin _ (Nat.le_refl _) hok,
    transcript_of_all tbl quiz.Problems stdin _ (Nat.le_refl _) hok, List.take_length,
    wrapUint_of_lt _ hc, and_self]

/-- The scenario of the specification: on the rows `["2+2","4"]`,
`["capital of France","Paris"]` with the input lines `"4"` and `" paris\n"` and 5 points
per correct answer both answers are marked correct and the score is 10. -/
theorem PlayQuiz_all_correct_witness :
    (PlayQuiz id sampleQuiz (sampleFlags 5) ["4", " paris\n"]).stdout
        = ["Q1: 2+2? ", "Correct!\n", "Q2: capital of France? ", "Correct!\n"] ∧
      (PlayQuiz id sampleQuiz (sampleFlags 5) ["4", " paris\n"]).quiz.Score = 2 * 5 :=
  PlayQuiz_all_correct id (sampleFlags 5) sampleQuiz ["4", " paris\n"] rfl rfl
    (by
      intro i line p hline hp
      have hi : i < 2 := by
        rcases Nat.lt_or_ge i 2 with h | h
        · exact h
        · rw [List.getElem?_eq_none (by simpa using h)] at hline
          cases hline
      have hcases : i = 0 ∨ i = 1 := by omega
      rcases hcases with rfl | rfl
      · obtain rfl : "4" = line := by simpa using hline
        obtain rfl : { Question := "2+2", Answer := "4" } = p := by
          simpa [sampleQuiz] using hp
        decide
      · obtain rfl : " paris\n" = line := by simpa using hline
        obtain rfl : { Question := "capital of France", Answer := "Paris" } = p := by
          simpa [sampleQuiz] using hp
        decide)
    (by
      intro p hp
      have hcases : p = { Question := "2+2", Answer := "4" } ∨
          p = { Question := "capital of France", Answer := "Paris" } := by
        simpa [sampleQuiz] using hp
      rcases hcases with rfl | rfl <;> decide)
    (by decide)

/-- C8: in the iteration of `PlayQuiz` for the problem `p`, if the trimmed input line
fails `ValidateAnswer`, the iteration writes, after the prompt, exactly the line
`Incorrect answer! Correct answer was <p.Answer>.`, and leaves the score and the
problems of the quiz unchanged. -/
theorem PlayQuizStep_incorrect (tbl : Char → Char) (flags : QuizFlags) (s : Session)
    (p : Problem) (hp : s.quiz.Problems[s.index]? = some p)
    (hbad : ValidateAnswer tbl p (TrimSpace (ReadString s.stdin).1) = false) :
    (PlayQuizStep tbl flags s).stdout =
        s.stdout ++ [promptText s.index p,
          "Incorrect answer! Correct answer was " ++ p.Answer ++ ".\n"] ∧
      (PlayQuizStep tbl flags s).quiz.Score = s.quiz.Score ∧
      (PlayQuizStep tbl flags s).quiz.Problems = s.quiz.Problems := by
  simp only [PlayQuizStep, hp, PlayQuizBody, hbad, Bool.false_eq_true, if_false,
    incorrectText, List.append_assoc, List.singleton_append, and_self]

/-- C8 at the scenario: the answer `"5"` to the problem `("2+2", "4")` is followed by
`Incorrect answer! Correct answer was 4.` and the score stays 0. -/
theorem PlayQuizStep_incorrect_witness :
    (PlayQuizStep id (sampleFlags 5) (startSession sampleQuiz ["5"])).stdout =
        ["Q1: 2+2? ", "Incorrect answer! Correct answer was 4.\n"] ∧
      (PlayQuizStep id (sampleFlags 5) (startSession sampleQuiz ["5"])).quiz.Score = 0 ∧
      (PlayQuizStep id (sampleFlags 5) (startSession sampleQuiz ["5"])).quiz.Problems
        = sampleQuiz.Problems :=
  PlayQuizStep_incorrect id (sampleFlags 5) (startSession sampleQuiz ["5"])
    { Question := "2+2", Answer := "4" } rfl (by decide)

/-! ## The end of a completed run -/

theorem PlayQuiz_problems (tbl : Char → Char) (flags : QuizFlags) (quiz : Quiz)
    (stdin : List String) (h0 : quiz.Score = 0) :
    (PlayQuiz tbl quiz flags stdin).quiz.Problems = quiz.Problems := by
  rw [PlayQuiz, PlayQuizIter_spec tbl flags quiz stdin h0]

/-- C9, as stated, fails. In the scenario, completed with both answers correct, the
last output is `Time is up!`, written by `ExitOnTimeUp` after the score report; and with
`-score 9223372036854775808` the report of the completed run reads
`You scored 0 out of 0!`, where `len(Problems) * c` is `18446744073709551616`. -/
theorem main_ends_with_time_up :
    (∀ tbl : Char → Char,
      main tbl sampleFsys (sampleFlags 5) ["4", " paris\n"] =
        some { stdout := ["Q1: 2+2? ", "Correct!\n", "Q2: capital of France? ",
                 "Correct!\n", "\nYou scored 10 out of 10!", "\nTime is up!\n"],
               code := 0 }) ∧
    (∀ tbl : Char → Char,
      (main tbl sampleFsys (sampleFlags 5) ["4", " paris\n"]).map
        (fun e => e.stdout.getLast?) = some (some "\nTime is up!\n")) ∧
    (∀ tbl : Char → Char,
      main tbl sampleFsys (sampleFlags (2 ^ 63)) ["4", " paris\n"] =
        some { stdout := ["Q1: 2+2? ", "Correct!\n", "Q2: capital of France? ",
                 "Correct!\n", "\nYou scored 0 out of 0!", "\nTime is up!\n"],
               code := 0 }) ∧
    sampleQuiz.Problems.length * (sampleFlags (2 ^ 63)).CorrectScore
      = 18446744073709551616 := by
  have hinit (c : Nat) : InitQuiz sampleFsys (sampleFlags c) = some sampleQuiz := rfl
  have hcount (tbl : Char → Char) :
      correctCount tbl sampleQuiz.Problems ["4", " paris\n"]
        sampleQuiz.Problems.length = 2 := rfl
  have hout (tbl : Char → Char) :
      transcript tbl sampleQuiz.Problems ["4", " paris\n"] sampleQuiz.Problems.length
        = ["Q1: 2+2? ", "Correct!\n", "Q2: capital of France? ", "Correct!\n"] := rfl
  have hrun (tbl : Char → Char) :
      main tbl sampleFsys (sampleFlags 5) ["4", " paris\n"] =
        some { stdout := ["Q1: 2+2? ", "Correct!\n", "Q2: capital of France? ",
                 "Correct!\n", "\nYou scored 10 out of 10!", "\nTime is up!\n"],
               code := 0 } := by
    simp only [main, hinit, PlayQuiz]
    rw [PlayQuizIter_spec tbl _ sampleQuiz _ rfl, hcount, hout]
    decide
  refine ⟨hrun, fun tbl => ?_, fun tbl => ?_, by decide⟩
  · rw [hrun tbl]
    rfl
  · simp only [main, hinit, PlayQuiz]
    rw [PlayQuizIter_spec tbl _ sampleQuiz _ rfl, hcount, hout]
    decide

/-- C9, amended: on a run in which `PlayQuiz` completes, with
`len(Problems) * c < 2 ^ 63`, the program writes after the output of `PlayQuiz` the
report `You scored <score> out of <total>!` with `score = quiz.Score` and
`total = len(Problems) * c`, then the line `Time is up!`, which is its last output, and
exits with code 0. -/
theorem main_output (tbl : Char → Char) (fsys : String → Option (List (List String)))
    (flags : QuizFlags) (quiz : Quiz) (stdin : List String)
    (hinit : InitQuiz fsys flags = some quiz)
    (hc : quiz.Problems.length * flags.CorrectScore < 2 ^ 63) :
    main tbl fsys flags stdin =
      some { stdout := (PlayQuiz tbl quiz flags stdin).stdout ++
               ["\nYou scored " ++ fmtUint (PlayQuiz tbl quiz flags stdin).quiz.Score
                  ++ " out of " ++ fmtUint (quiz.Problems.length * flags.CorrectScore)
                  ++ "!",
                "\nTime is up!\n"],
             code := 0 } := by
  have hprob := PlayQuiz_problems tbl flags quiz stdin (InitQuiz_score fsys flags quiz hinit)
  have hc2 : (PlayQuiz tbl quiz flags stdin).quiz.Problems.length * flags.CorrectScore
      < 2 ^ 63 := by rw [hprob]; exact hc
  simp only [main, hinit, mainAfterPlay, ExitOnTimeUp, PromptScoreMessage_of_lt _ _ hc2,
    hprob, List.append_assoc, List.singleton_append]

/-- C9, amended, at the scenario with a wrong first answer and 5 points per correct
answer. -/
theorem main_output_witness :
    main id sampleFsys (sampleFlags 5) ["5", "PARIS\n"] =
      some { stdout := ["Q1: 2+2? ", "Incorrect answer! Correct answer was 4.\n",
               "Q2: capital of France? ", "Correct!\n", "\nYou scored 5 out of 10!",
               "\nTime is up!\n"],
             code := 0 } :=
  (main_output id sampleFsys (sampleFlags 5) sampleQuiz ["5", "PARIS\n"] (by decide)
    (by decide)).trans (by decide)

end GoQuiz
